import Mathlib

/-!
Verification of the marketerx-backend orchestration core.

This file gives a shallow embedding, in Lean 4, of the parts of the
TypeScript source that the frozen claims are about:

* `src/services/cache.service.ts` — the tiered cache-aside service
  (`CacheService.get` / `set` / `getOrSet`) over a Redis-like store with
  per-key expiry (`setex` semantics).
* `src/agents/tier1-orchestrator.ts` (looped variant) — the streaming
  decoder, the bounded agentic control loop (`Tier1Orchestrator.run`) and
  `processToolCalls`.
* `src/agents/tools.ts` — `executeTool` dispatch and
  `executeValidateContent`.
* `src/agents/tier2-executor.ts` — `Tier2Executor.execute` /
  `generateContent` event emissions.
* `src/services/chat.service.ts` — `ChatService.processMessage` SSE
  lifecycle, with `src/utils/sse.ts` (`SSEStream`) event shapes.

External collaborators (Redis, the Anthropic stream, Supabase
repositories, `JSON.parse`) are modelled as explicit parameters: the
provider stream is a list of increment events, `JSON.parse` is an
abstract `String → Option JVal` (with the constant fact
`JSON.parse (chr 123 ++ chr 125) = empty object` inlined where the
source hardcodes that literal), and each tool handler / repository call
is an oracle value in an environment record.  Wall-clock timestamps kept
by the source (`new Date()`, `Date.now()`) are dropped or passed as
plain naturals.
-/

namespace MX

/-- JSON values as produced by `JSON.parse`.  JavaScript `null` and JSON
`null` are the same value, which is exactly the conflation the cache
claims are about; numbers are modelled as integers since no claim
computes with them. -/
inductive JVal where
  | null
  | bool (b : Bool)
  | num (n : Int)
  | str (s : String)
  | arr (elems : List JVal)
  | obj (fields : List (String × JVal))
deriving Repr, Inhabited

/-- JavaScript test `x === null` on a parsed value. -/
def JVal.isNull : JVal → Bool
  | .null => true
  | _ => false

/-! ## Tiered cache (`src/services/cache.service.ts`) -/

/-- The `CacheLayer` enum; the string values are the enum member values
used inside cache keys. -/
inductive CacheLayer where
  | prompt
  | session
  | knowledge
  | canon
  | http
deriving Repr, DecidableEq

/-- String value of a `CacheLayer` enum member. -/
def CacheLayer.value : CacheLayer → String
  | .prompt => "prompt"
  | .session => "session"
  | .knowledge => "knowledge"
  | .canon => "canon"
  | .http => "http"

/-- The Redis key space: an association list of key, stored (serialized)
value and absolute expiry time.  `JSON.stringify`/`JSON.parse`
round-trip is the identity on `JVal`, so entries store `JVal` directly. -/
abbrev RedisStore := List (String × JVal × Nat)

/-- Model of `redis.get` at time `now`: Redis itself drops a key whose
expiry has passed, so an expired entry reads as absent. -/
def redisGet (st : RedisStore) (now : Nat) (k : String) : Option JVal :=
  match st.find? (fun e => e.1 == k) with
  | some (_, v, exp) => if now < exp then some v else none
  | none => none

/-- Model of `redis.setex key ttl value` at time `now`: overwrite the
key with expiry `now + ttl`. -/
def redisSetex (st : RedisStore) (now ttl : Nat) (k : String) (v : JVal) : RedisStore :=
  (k, v, now + ttl) :: st.filter (fun e => !(e.1 == k))

/-- The deployment-supplied TTLs (`config.cache.ttl`). -/
structure CacheConfig where
  sessionTTL : Nat
  knowledgeTTL : Nat
  canonTTL : Nat
deriving Repr

namespace CacheService

/-- `CacheService.getTTL`: per-layer default TTL; `http` and `prompt`
(and the `default` switch arm) are 300 seconds. -/
def getTTL (cfg : CacheConfig) : CacheLayer → Nat
  | .session => cfg.sessionTTL
  | .knowledge => cfg.knowledgeTTL
  | .canon => cfg.canonTTL
  | .http => 300
  | .prompt => 300

/-- `CacheService.buildKey`: namespaced cache key. -/
def buildKey (layer : CacheLayer) (key : String) : String :=
  "marketerx:" ++ layer.value ++ ":" ++ key

/-- `CacheService.get`.  The source returns `JSON.parse(value)` on a hit
and the JavaScript `null` on a miss (`if (!value) return null`); both a
genuine miss and a cached JSON `null` therefore come back as the same
`null`, modelled by `JVal.null`. -/
def get (st : RedisStore) (now : Nat) (layer : CacheLayer) (key : String) : JVal :=
  match redisGet st now (buildKey layer key) with
  | none => JVal.null
  | some v => v

/-- Effective TTL of `CacheService.set`: `customTTL || this.getTTL(layer)`
— an absent or zero (falsy) override falls back to the layer default. -/
def effectiveTTL (cfg : CacheConfig) (layer : CacheLayer) (customTTL : Option Nat) : Nat :=
  match customTTL with
  | some t => if t = 0 then getTTL cfg layer else t
  | none => getTTL cfg layer

/-- `CacheService.set`: store under the namespaced key with the
effective TTL. -/
def set (cfg : CacheConfig) (st : RedisStore) (now : Nat) (layer : CacheLayer)
    (key : String) (v : JVal) (customTTL : Option Nat) : RedisStore :=
  redisSetex st now (effectiveTTL cfg layer customTTL) (buildKey layer key) v

/-- Result of one `getOrSet` call: the returned value, the store
afterwards, and whether `fetchFn` was invoked. -/
structure GetOrSetResult where
  value : JVal
  store : RedisStore
  invokedFetch : Bool
deriving Repr

/-- `CacheService.getOrSet` (cache-aside): return the cached value when
`cached !== null`, otherwise invoke `fetchFn`, store its result and
return it.  `fetchFn` is modelled by the value it resolves to; the
`invokedFetch` flag records whether it ran. -/
def getOrSet (cfg : CacheConfig) (st : RedisStore) (now : Nat) (layer : CacheLayer)
    (key : String) (fetchFn : JVal) (customTTL : Option Nat) : GetOrSetResult :=
  let cached := get st now layer key
  if cached.isNull then
    let value := fetchFn
    { value := value, store := set cfg st now layer key value customTTL, invokedFetch := true }
  else
    { value := cached, store := st, invokedFetch := false }

end CacheService

/-! ## SSE events (`src/utils/sse.ts`) -/

/-- One event written to the outbound SSE stream.  The constructors
mirror the `SSEStream` helper methods and the literal `send` calls in
the orchestrator: `thinking`, `message` (role is always `assistant`),
`analysis`, `artifact` (tier-2 sends `type`/`content` pairs), `error`
and `done`. -/
inductive SSEEvt where
  | thinking (ttype content : String)
  | message (content messageId : String)
  | analysis (atype content : String)
  | artifact (atype content : String)
  | error (message : String) (code : Option String)
  | done (conversationId : String) (messageCount : Nat)
deriving Repr, DecidableEq

/-! ## Provider increments and the streaming decoder
(`Tier1Orchestrator.run`, `src/agents/tier1-orchestrator.ts`) -/

/-- One increment of the Anthropic streaming response, restricted to the
event/delta shapes the orchestrator inspects. -/
inductive StreamEvent where
  | messageStart (inputTokens : Nat)
  | contentBlockStartText
  | contentBlockStartTool (id name : String)
  | textDelta (text : String)
  | inputJsonDelta (partialJson : String)
  | contentBlockStop
  | messageDelta (outputTokens : Nat) (stopReason : Option String)
  | messageStop
deriving Repr, DecidableEq

/-- An entry of the `contentBlocks` array: a text block (whose buffer
grows with each delta) or a tool-use block whose `input` is attached
once parsed. -/
inductive ContentBlock where
  | text (t : String)
  | toolUse (id name : String) (input : Option JVal)
deriving Repr, Inhabited

/-- A finished entry of `toolUseBlocks`: id, name and parsed input. -/
structure ToolUse where
  id : String
  name : String
  input : JVal
deriving Repr, Inhabited

/-- The `currentToolUse` object while its argument JSON is streaming;
`inputJson` is `none` until the first `input_json_delta` arrives
(the field is `undefined` in the source until first assignment). -/
structure PartialToolUse where
  id : String
  name : String
  inputJson : Option String
deriving Repr

/-- The per-turn mutable locals of the streaming loop in
`Tier1Orchestrator.run`, plus the list of events sent to the stream
while decoding. -/
structure DecodeState where
  fullResponse : String := ""
  toolUseBlocks : List ToolUse := []
  contentBlocks : List ContentBlock := []
  currentToolUse : Option PartialToolUse := none
  inputTokens : Nat := 0
  outputTokens : Nat := 0
  stopReason : String := ""
  streamingStarted : Bool := false
  emitted : List SSEEvt := []
deriving Repr, Inhabited

/-- JavaScript `contentBlocks[contentBlocks.length - 1].text += chunk`
guarded by `lastBlock && lastBlock.type === 'text'`: append to the last
block if it is a text block, otherwise leave the list unchanged. -/
def appendToLastText : List ContentBlock → String → List ContentBlock
  | [], _ => []
  | [ContentBlock.text t], chunk => [ContentBlock.text (t ++ chunk)]
  | [b], _ => [b]
  | b :: rest, chunk => b :: appendToLastText rest chunk

/-- JavaScript `lastBlock.input = currentToolUse.input` guarded by
`lastBlock && lastBlock.type === 'tool_use'`. -/
def setLastToolInput : List ContentBlock → JVal → List ContentBlock
  | [], _ => []
  | [ContentBlock.toolUse id name _], v => [ContentBlock.toolUse id name (some v)]
  | [b], _ => [b]
  | b :: rest, v => b :: setLastToolInput rest v

/-- One arm of the `for await (const event of response)` dispatch.
`parse` models `JSON.parse` (`none` = exception); the source parses
`currentToolUse.inputJson || '{}'`, so an absent or empty buffer takes
the literal-`'{}'` path, whose parse is the empty object. -/
def decodeStep (parse : String → Option JVal) (st : DecodeState) (ev : StreamEvent) : DecodeState :=
  match ev with
  | .messageStart it => { st with inputTokens := it }
  | .contentBlockStartText =>
      let st :=
        if st.streamingStarted then st
        else { st with emitted := st.emitted ++ [SSEEvt.message "" "streaming-start"],
                       streamingStarted := true }
      { st with contentBlocks := st.contentBlocks ++ [ContentBlock.text ""] }
  | .contentBlockStartTool id name =>
      { st with
        emitted := st.emitted ++ [SSEEvt.thinking "tool_status" ("Preparing to call: " ++ name)],
        currentToolUse := some ⟨id, name, none⟩,
        contentBlocks := st.contentBlocks ++ [ContentBlock.toolUse id name none] }
  | .textDelta chunk =>
      { st with
        fullResponse := st.fullResponse ++ chunk,
        contentBlocks := appendToLastText st.contentBlocks chunk,
        emitted := st.emitted ++ [SSEEvt.message chunk "streaming"] }
  | .inputJsonDelta pj =>
      match st.currentToolUse with
      | none => st
      | some ctu =>
          { st with currentToolUse := some { ctu with inputJson := some ((ctu.inputJson.getD "") ++ pj) } }
  | .contentBlockStop =>
      match st.currentToolUse with
      | none => st
      | some ctu =>
          let buf := ctu.inputJson.getD ""
          let parsed := if buf = "" then some (JVal.obj []) else parse buf
          match parsed with
          | some v =>
              { st with
                contentBlocks := setLastToolInput st.contentBlocks v,
                toolUseBlocks := st.toolUseBlocks ++ [⟨ctu.id, ctu.name, v⟩],
                currentToolUse := none }
          | none =>
              -- `JSON.parse` threw: the invocation is logged and dropped.
              { st with currentToolUse := none }
  | .messageDelta ot sr =>
      let st := { st with outputTokens := ot }
      match sr with
      | some r => { st with stopReason := r }
      | none => st
  | .messageStop => st

/-- Consume one model turn's increment stream. -/
def decodeEvents (parse : String → Option JVal) (evs : List StreamEvent) (st : DecodeState) : DecodeState :=
  evs.foldl (decodeStep parse) st

/-! ## Tool dispatch (`executeTool`, `src/agents/tools.ts`) -/

/-- The `metadata` record of a `ToolExecutionResult`, merged over the
field names the five handlers and `processToolCalls` actually read. -/
structure ToolMeta where
  count : Option Nat := none
  resultCount : Option Nat := none
  summary : Option String := none
  title : Option String := none
  tokensUsed : Option Nat := none
  validationStatus : Option String := none
  artifactId : Option String := none
  issues : List String := []
  warnings : List String := []
  rulesChecked : Option Nat := none
deriving Repr, Inhabited

/-- `ToolExecutionResult` as returned by every handler. -/
structure ToolExecutionResult where
  success : Bool
  content : String
  metadata : ToolMeta := {}
  error : Option String := none
deriving Repr, Inhabited

/-- Behaviour of the five registered handlers.  Each handler call yields
the SSE events it emitted through `context.stream` and either a result
(`Except.ok`) or a thrown error message (`Except.error`); the handlers
themselves consult external collaborators, which is why they are
oracles here. -/
structure ToolEnv where
  fetchCanon : JVal → List SSEEvt × Except String ToolExecutionResult
  knowledgeSearch : JVal → List SSEEvt × Except String ToolExecutionResult
  webSearch : JVal → List SSEEvt × Except String ToolExecutionResult
  contentExecution : JVal → List SSEEvt × Except String ToolExecutionResult
  validateContent : JVal → List SSEEvt × Except String ToolExecutionResult

/-- `executeTool`: the `switch (toolName)` dispatch.  An unregistered
name falls to the `default` arm, which returns a failure result and
cannot throw. -/
def executeTool (env : ToolEnv) (toolName : String) (toolInput : JVal) :
    List SSEEvt × Except String ToolExecutionResult :=
  match toolName with
  | "fetch_canon" => env.fetchCanon toolInput
  | "knowledge_search" => env.knowledgeSearch toolInput
  | "web_search" => env.webSearch toolInput
  | "content_execution" => env.contentExecution toolInput
  | "validate_content" => env.validateContent toolInput
  | _ => ([], .ok { success := false,
                    content := "Unknown tool: " ++ toolName,
                    error := some "Tool not found" })

/-- The five names registered in the dispatch switch. -/
def registeredToolNames : List String :=
  ["fetch_canon", "knowledge_search", "web_search", "content_execution", "validate_content"]

/-! ## Agent run state and `processToolCalls` -/

/-- An entry of `state.toolCalls` (timestamps dropped). -/
structure ToolCallRec where
  id : String
  name : String
  input : JVal
deriving Repr

/-- An entry of `state.toolResults` (timestamps dropped). -/
structure ToolResultRec where
  toolCallId : String
  output : String
  isError : Bool
deriving Repr, DecidableEq

/-- A `tool_result` content entry of the user message the loop appends
after a dispatching round. -/
structure ToolResultBlock where
  toolUseId : String
  content : String
  isError : Bool
deriving Repr, DecidableEq

/-- Content of a conversation message: the plain strings of history,
the assistant `contentBlocks` array, or the `tool_result` array. -/
inductive MsgContent where
  | text (s : String)
  | blocks (bs : List ContentBlock)
  | toolResults (rs : List ToolResultBlock)
deriving Repr, Inhabited

/-- A conversation message. -/
structure Msg where
  role : String
  content : MsgContent
deriving Repr, Inhabited

/-- The fields of `AgentState` the control loop reads or writes
(identifier fields and timestamps are dropped; `tokensUsed` is split in
two counters). -/
structure AgentState where
  conversationContext : List Msg := []
  currentUserMessage : String := ""
  toolCalls : List ToolCallRec := []
  toolResults : List ToolResultRec := []
  response : String := ""
  tokensInput : Nat := 0
  tokensOutput : Nat := 0
deriving Repr, Inhabited

/-- `buildMessages` of the looped orchestrator: keep user/assistant
history and append the current user message unless it is already the
last (string) entry. -/
def buildMessages (st : AgentState) : List Msg :=
  let msgs := st.conversationContext.filter (fun m => m.role == "user" || m.role == "assistant")
  let isCurrentMessageInContext :=
    match msgs.getLast? with
    | some m =>
        m.role == "user" &&
          (match m.content with
           | .text s => s == st.currentUserMessage
           | _ => false)
    | none => false
  if isCurrentMessageInContext then msgs
  else msgs ++ [⟨"user", .text st.currentUserMessage⟩]

/-- JavaScript `opt || dflt` on an optional string (absent or empty
falls back). -/
def jsOr (s : Option String) (dflt : String) : String :=
  match s with
  | some t => if t = "" then dflt else t
  | none => dflt

/-- The success-path `analysis` event `processToolCalls` sends for each
recognized tool name (none for other names). -/
def successEvents (name : String) (m : ToolMeta) : List SSEEvt :=
  match name with
  | "fetch_canon" =>
      [SSEEvt.analysis "canon_loaded" ("Canon loaded: " ++ toString (m.count.getD 0) ++ " rules")]
  | "knowledge_search" =>
      [SSEEvt.analysis "knowledge_summary" ("Found " ++ toString (m.resultCount.getD 0) ++ " relevant resources")]
  | "web_search" =>
      [SSEEvt.analysis "research_summary" (jsOr m.summary "Web search completed")]
  | "content_execution" =>
      [SSEEvt.analysis "content_generated"
        ("✅ " ++ jsOr m.title "Content" ++ " generated (" ++ toString (m.tokensUsed.getD 0) ++ " tokens)")]
  | "validate_content" =>
      [SSEEvt.analysis "validation_complete" ("Validation: " ++ jsOr m.validationStatus "completed")]
  | _ => []

/-- One iteration of the `for (const toolUse of toolUseBlocks)` loop in
`processToolCalls`: the `toolCalls` entries added (none when the handler
threw), the `toolResults` entry added (always exactly one), and the SSE
events emitted. -/
def processOneTool (env : ToolEnv) (tu : ToolUse) :
    List ToolCallRec × ToolResultRec × List SSEEvt :=
  match executeTool env tu.name tu.input with
  | (hevts, .ok result) =>
      ([⟨tu.id, tu.name, tu.input⟩],
       ⟨tu.id, result.content, !result.success⟩,
       [SSEEvt.thinking "tool_status" ("Executing " ++ tu.name ++ "...")] ++ hevts ++
         (if result.success then
            SSEEvt.thinking "tool_status" ("✅ " ++ tu.name ++ " completed") ::
              successEvents tu.name result.metadata
          else
            [SSEEvt.thinking "tool_status"
              ("❌ " ++ tu.name ++ " failed: " ++ result.error.getD "undefined")]))
  | (hevts, .error msg) =>
      ([],
       ⟨tu.id, "Error: " ++ msg, true⟩,
       [SSEEvt.thinking "tool_status" ("Executing " ++ tu.name ++ "...")] ++ hevts ++
         [SSEEvt.thinking "tool_status" ("❌ " ++ tu.name ++ " error: " ++ msg)])

/-- Accumulation of one `processOneTool` outcome into the running
state/emissions pair. -/
def processToolStep (env : ToolEnv) (acc : AgentState × List SSEEvt) (tu : ToolUse) :
    AgentState × List SSEEvt :=
  let r := processOneTool env tu
  ({ acc.1 with
     toolCalls := acc.1.toolCalls ++ r.1,
     toolResults := acc.1.toolResults ++ [r.2.1] },
   acc.2 ++ r.2.2)

/-- `Tier1Orchestrator.processToolCalls`: execute the decoded
invocations sequentially, in order, accumulating state and emissions. -/
def processToolCalls (env : ToolEnv) (tus : List ToolUse) (st : AgentState) :
    AgentState × List SSEEvt :=
  tus.foldl (processToolStep env) (st, [])

/-! ## The agentic control loop (`Tier1Orchestrator.run`) -/

/-- Last `n` elements of a list — JavaScript `array.slice(-n)` for
`n ≥ 1`. -/
def takeLast (n : Nat) (l : List α) : List α :=
  l.drop (l.length - n)

/-- The `tool_result` block the loop builds from a recorded result:
`content: result.output || 'No output'`. -/
def toolResultBlockOf (r : ToolResultRec) : ToolResultBlock :=
  ⟨r.toolCallId, if r.output = "" then "No output" else r.output, r.isError⟩

/-- What one loop iteration did, for stating temporal properties: the
names of the finished tool invocations the decoder produced, whether the
tool-dispatch branch ran, and whether the loop decided to continue. -/
structure IterLog where
  toolNames : List String
  dispatched : Bool
  continued : Bool
deriving Repr, DecidableEq

/-- Result of one body execution of the `while` loop. -/
structure IterOutcome where
  state : AgentState
  continueLoop : Bool
  log : IterLog
  events : List SSEEvt

/-- The post-decode part of one body execution of the `while` loop in
`Tier1Orchestrator.run`, at (1-based) iteration number `loopCount`,
acting on the decoded turn `ds`: add token usage; if well-formed tool
invocations exist and the stop reason is `tool_use`, run
`processToolCalls`, append the assistant turn and the tool-results user
turn, and stop iff `validate_content` was dispatched or
`content_execution` was dispatched at `loopCount ≥ 2`; otherwise take
the decoded text as the final response and stop. -/
def runIterCore (env : ToolEnv) (ds : DecodeState) (st : AgentState)
    (loopCount : Nat) : IterOutcome :=
  let st := { st with tokensInput := st.tokensInput + ds.inputTokens,
                      tokensOutput := st.tokensOutput + ds.outputTokens }
  if !ds.toolUseBlocks.isEmpty && ds.stopReason == "tool_use" then
    let pr := processToolCalls env ds.toolUseBlocks st
    let st1 := pr.1
    let toolEvts := pr.2
    let hasContentExecution := ds.toolUseBlocks.any (fun t => t.name == "content_execution")
    let hasValidation := ds.toolUseBlocks.any (fun t => t.name == "validate_content")
    let st2 :=
      if !ds.contentBlocks.isEmpty then
        { st1 with conversationContext :=
            st1.conversationContext ++ [⟨"assistant", .blocks ds.contentBlocks⟩] }
      else st1
    let resultBlocks := (takeLast ds.toolUseBlocks.length st2.toolResults).map toolResultBlockOf
    let st3 := { st2 with conversationContext :=
        st2.conversationContext ++ [⟨"user", .toolResults resultBlocks⟩] }
    if hasValidation || (hasContentExecution && decide (2 ≤ loopCount)) then
      { state := { st3 with response :=
            if ds.fullResponse = "" then "Content generated successfully." else ds.fullResponse },
        continueLoop := false,
        log := ⟨ds.toolUseBlocks.map (·.name), true, false⟩,
        events := ds.emitted ++ toolEvts }
    else
      { state := st3, continueLoop := true,
        log := ⟨ds.toolUseBlocks.map (·.name), true, true⟩,
        events := ds.emitted ++ toolEvts }
  else
    { state := { st with response := ds.fullResponse }, continueLoop := false,
      log := ⟨ds.toolUseBlocks.map (·.name), false, false⟩,
      events := ds.emitted }

/-- One body execution of the `while` loop: build the request messages,
decode this turn's increment stream from a fresh decoder state, and act
on it (`runIterCore`). -/
def runIter (parse : String → Option JVal) (env : ToolEnv) (evs : List StreamEvent)
    (st : AgentState) (loopCount : Nat) : IterOutcome :=
  let _messages := buildMessages st
  runIterCore env (decodeEvents parse evs {}) st loopCount

/-- The `while (continueLoop && loopCount < maxLoops)` recursion.
`oracle n` is the increment stream the provider returns for the `n`-th
model call; `fuel` is `maxLoops - loopCount`, so the loop guard
`loopCount < maxLoops` is exactly `fuel > 0`.  Returns the final state,
the final value of `loopCount`, the per-iteration logs and the emitted
events. -/
def runAux (parse : String → Option JVal) (env : ToolEnv) (oracle : Nat → List StreamEvent) :
    AgentState → Nat → Nat → AgentState × Nat × List IterLog × List SSEEvt
  | st, loopCount, 0 => (st, loopCount, [], [])
  | st, loopCount, fuel + 1 =>
      let it := runIter parse env (oracle (loopCount + 1)) st (loopCount + 1)
      if it.continueLoop then
        let rest := runAux parse env oracle it.state (loopCount + 1) fuel
        (rest.1, rest.2.1, it.log :: rest.2.2.1, it.events ++ rest.2.2.2)
      else
        (it.state, loopCount + 1, [it.log], it.events)

/-- Result of a whole orchestrator run. -/
structure RunResult where
  state : AgentState
  loopCount : Nat
  logs : List IterLog
  events : List SSEEvt

/-- The fixed iteration cap (`const maxLoops = 5`). -/
def maxLoops : Nat := 5

namespace Tier1Orchestrator

/-- `Tier1Orchestrator.run`: the opening `thinking` event, then the
agentic loop starting from `loopCount = 0` with the cap of `maxLoops`
iterations (`modelUsed` bookkeeping dropped). -/
def run (parse : String → Option JVal) (env : ToolEnv) (oracle : Nat → List StreamEvent)
    (st : AgentState) : RunResult :=
  let r := runAux parse env oracle st 0 maxLoops
  { state := r.1, loopCount := r.2.1, logs := r.2.2.1,
    events := SSEEvt.thinking "agent_reasoning" "Tier 1 orchestrator analyzing your request..." :: r.2.2.2 }

end Tier1Orchestrator

/-! ## Tier 2 executor (`src/agents/tier2-executor.ts`) -/

/-- Field lookup on a parsed JSON object. -/
def JVal.field (v : JVal) (k : String) : Option JVal :=
  match v with
  | .obj fs => (fs.find? (fun f => f.1 == k)).map (fun f => f.2)
  | _ => none

/-- JavaScript template interpolation of an object field expected to be
a string: a missing field renders as `undefined`. -/
def JVal.fieldStr (v : JVal) (k : String) : String :=
  match v.field k with
  | some (.str s) => s
  | _ => "undefined"

/-- The Haiku provider stream consumed by `generateContent`: the text
chunks it yields, the token total, and an error thrown mid-stream, if
any (in which case the `artifact`/`end` event is never reached). -/
structure Tier2Provider where
  chunks : List String
  tokensUsed : Nat
  thrown : Option String
deriving Repr

namespace Tier2Executor

/-- `Tier2Executor.generateContent`: emit `artifact start`, one
`artifact delta` per text chunk, then `artifact end`; return the
accumulated content, or propagate a provider error after the deltas
already sent. -/
def generateContent (p : Tier2Provider) : List SSEEvt × Except String String :=
  let deltas := p.chunks.map (fun c => SSEEvt.artifact "delta" c)
  match p.thrown with
  | some e => (SSEEvt.artifact "start" "" :: deltas, .error e)
  | none => (SSEEvt.artifact "start" "" :: deltas ++ [SSEEvt.artifact "end" ""], .ok (String.join p.chunks))

/-- The `title` computed by `buildPrompts`, which throws on a content
type outside its four cases (prompt text itself is not modelled). -/
def buildPromptsTitle (contentType : String) (brief : JVal) : Except String String :=
  match contentType with
  | "email" => .ok ("Email: " ++ brief.fieldStr "purpose")
  | "ad" => .ok (brief.fieldStr "platform" ++ " Ad: " ++ brief.fieldStr "objective")
  | "landing-page" => .ok ("Landing Page: " ++ brief.fieldStr "productService")
  | "script" => .ok (brief.fieldStr "format" ++ " Script: " ++ brief.fieldStr "purpose")
  | _ => .error ("Unknown content type: " ++ contentType)

/-- `Tier2Executor.execute`: the opening `analysis` event, prompt
building, streaming generation, the closing `analysis` event on
success; on any caught error it sends an `error` event on the SSE
stream (`this.stream.error(error.message || 'Content generation
failed')`) and rethrows.  Returns (content, title, tokensUsed) on
success; `genTimeMs` stands for the measured wall-clock duration. -/
def execute (contentType : String) (brief : JVal) (p : Tier2Provider) (genTimeMs : Nat) :
    List SSEEvt × Except String (String × String × Nat) :=
  let start := [SSEEvt.analysis "content_generation_start" ("Generating " ++ contentType ++ " content...")]
  match buildPromptsTitle contentType brief with
  | .error e =>
      (start ++ [SSEEvt.error (if e = "" then "Content generation failed" else e) none],
       .error ("Content generation failed: " ++ e))
  | .ok title =>
      match generateContent p with
      | (gevts, .error e) =>
          (start ++ gevts ++ [SSEEvt.error (if e = "" then "Content generation failed" else e) none],
           .error ("Content generation failed: " ++ e))
      | (gevts, .ok content) =>
          (start ++ gevts ++
             [SSEEvt.analysis "content_generated"
               ("✅ " ++ contentType ++ " generated in " ++ toString genTimeMs ++ "ms")],
           .ok (content, title, p.tokensUsed))

end Tier2Executor

/-- `executeContentExecution` (`src/agents/tools.ts`): run the tier-2
executor, persist the artifact (`saveArtifact` is the repository
oracle, returning the new artifact id or throwing), and wrap everything
in the handler's `try`/`catch`, which converts any thrown error into a
failure `ToolExecutionResult`.  Of the metadata spread only the fields
later read are kept. -/
def executeContentExecution (contentType : String) (brief : JVal) (p : Tier2Provider)
    (genTimeMs : Nat) (saveArtifact : Except String String) : List SSEEvt × ToolExecutionResult :=
  match Tier2Executor.execute contentType brief p genTimeMs with
  | (evts, .error e) =>
      (evts, { success := false, content := "Failed to generate content", error := some e })
  | (evts, .ok (content, title, tokens)) =>
      match saveArtifact with
      | .error e =>
          (evts, { success := false, content := "Failed to generate content", error := some e })
      | .ok artifactId =>
          (evts, { success := true,
                   content := "Content generated successfully!\n\nArtifact ID: " ++ artifactId ++ "\n\n" ++ content,
                   metadata := { artifactId := some artifactId, title := some title,
                                 tokensUsed := some tokens } })

/-- A `ToolEnv` handler for `content_execution` built from the embedded
tier-2 pipeline; never throws at the dispatch boundary because of the
handler's own `try`/`catch`. -/
def contentExecutionHandler (p : Tier2Provider) (genTimeMs : Nat)
    (saveArtifact : Except String String) (input : JVal) :
    List SSEEvt × Except String ToolExecutionResult :=
  let r := executeContentExecution (input.fieldStr "contentType") ((input.field "brief").getD .null)
             p genTimeMs saveArtifact
  (r.1, .ok r.2)

/-! ## Content validation (`executeValidateContent`, `src/agents/tools.ts`) -/

/-- Character-list prefix test. -/
def listIsPrefix : List Char → List Char → Bool
  | [], _ => true
  | _ :: _, [] => false
  | a :: as, b :: bs => a == b && listIsPrefix as bs

/-- Character-list infix test. -/
def listIsInfix (needle : List Char) : List Char → Bool
  | [] => listIsPrefix needle []
  | hay@(_ :: t) => listIsPrefix needle hay || listIsInfix needle t

/-- JavaScript `haystack.includes(needle)` (substring containment). -/
def strIncludes (s sub : String) : Bool :=
  listIsInfix sub.data s.data

/-- JavaScript `toLowerCase` (ASCII suffices for the literals used). -/
def strLower (s : String) : String := s.map Char.toLower

/-- JavaScript `toUpperCase` (ASCII suffices for the literals used). -/
def strUpper (s : String) : String := s.map Char.toUpper

/-- Case-insensitive character-list prefix test (regex `i` flag). -/
def listIsPrefixCI : List Char → List Char → Bool
  | [], _ => true
  | _ :: _, [] => false
  | a :: as, b :: bs => a.toLower == b.toLower && listIsPrefixCI as bs

/-- A character the regex `.` matches (no `s` flag): anything except
line terminators. -/
def isRegexDotChar (c : Char) : Bool :=
  !(c == '\n' || c == '\r' || c == '\u2028' || c == '\u2029')

/-- Lazy completion of `(.*?)<\/subject>` from a position just after the
opening tag: the shortest run of non-terminator characters followed by
the (case-insensitive) closing tag. -/
def tryCaptureSubject : List Char → Option (List Char)
  | [] => none
  | cs@(c :: rest) =>
      if listIsPrefixCI "</subject>".data cs then some []
      else if isRegexDotChar c then (tryCaptureSubject rest).map (fun l => c :: l)
      else none

/-- First match of `/<subject>(.*?)<\/subject>/i`, returning the
captured group: scan start positions left to right; where the opening
tag matches, take the lazy completion, otherwise (as the regex engine
backtracks the start position) keep scanning. -/
def findSubjectCapture : List Char → Option String
  | [] => none
  | cs@(_ :: rest) =>
      if listIsPrefixCI "<subject>".data cs then
        match tryCaptureSubject (cs.drop "<subject>".data.length) with
        | some cap => some (String.mk cap)
        | none => findSubjectCapture rest
      else findSubjectCapture rest

/-- The spam-trigger word list of `executeValidateContent`. -/
def spamWords : List String := ["free", "!!!", "urgent", "act now", "limited time"]

/-- One pass of the `for (const rule of complianceRules)` loop: the
unsubscribe issue and the address warning (email only), the
subject-line spam warning (email with a `<subject>` tag), and the CTA
warning, appended in source order to the running lists.  A rule is
modelled by its name (`rule.rule || rule.name`). -/
def validateRuleStep (content contentType : String) (acc : List String × List String)
    (ruleName : String) : List String × List String :=
  let issues1 :=
    if contentType == "email" && strIncludes (strLower ruleName) "unsubscribe"
        && !strIncludes (strLower content) "unsubscribe" then
      acc.1 ++ ["Missing unsubscribe link (CAN-SPAM requirement)"]
    else acc.1
  let warns1 :=
    if contentType == "email" && strIncludes (strLower ruleName) "address"
        && !(strIncludes content "address" || strIncludes content "location"
              || strIncludes content "office") then
      acc.2 ++ ["Consider adding company physical address for CAN-SPAM compliance"]
    else acc.2
  let warns2 :=
    if contentType == "email" && strIncludes content "<subject>" then
      match findSubjectCapture content.data with
      | some subject =>
          if spamWords.any (fun w => strIncludes (strLower subject) (strLower w)) then
            warns1 ++ ["Subject line contains potential spam trigger words"]
          else warns1
      | none => warns1
    else warns1
  let warns3 :=
    if !strIncludes (strLower content) "cta" && decide (100 < content.length) then
      warns2 ++ ["Content may be missing a clear call-to-action"]
    else warns2
  (issues1, warns3)

/-- `executeValidateContent`: run the rule loop, classify
(`issues.length > 0 ? 'failed' : warnings.length > 0 ? 'warning' :
'passed'`) and build the joined result message (empty lines filtered by
`.filter(Boolean)`). -/
def executeValidateContent (content contentType : String) (canonRules : List String) :
    ToolExecutionResult :=
  let iw := canonRules.foldl (validateRuleStep content contentType) ([], [])
  let issues := iw.1
  let warnings := iw.2
  let validationStatus :=
    if !issues.isEmpty then "failed" else if !warnings.isEmpty then "warning" else "passed"
  let ls : List String :=
    ["Validation Status: " ++ strUpper validationStatus, ""] ++
    [if !issues.isEmpty then "❌ Issues:" else ""] ++
    issues.map (fun i => "  - " ++ i) ++ [""] ++
    [if !warnings.isEmpty then "⚠️ Warnings:" else ""] ++
    warnings.map (fun w => "  - " ++ w) ++ [""] ++
    [if issues.isEmpty && warnings.isEmpty then "✅ All compliance checks passed!" else ""]
  let resultMessage := String.intercalate "\n" (ls.filter (fun s => s ≠ ""))
  { success := true,
    content := resultMessage,
    metadata := { validationStatus := some validationStatus, issues := issues,
                  warnings := warnings, rulesChecked := some canonRules.length } }

/-! ## Chat service (`ChatService.processMessage`, `src/services/chat.service.ts`) -/

/-- A thrown error as the chat service's `catch` sees it: its message,
its code when it is a `ChatError`, and the `instanceof ChatError`
distinction. -/
structure ChatErr where
  message : String
  code : Option String
  isChatError : Bool
deriving Repr

/-- The `error` SSE event the `catch` block sends. -/
def chatErrEvent (e : ChatErr) : SSEEvt :=
  if e.isChatError then SSEEvt.error e.message e.code
  else SSEEvt.error "An unexpected error occurred" (some "CHAT_ERROR")

/-- Outcomes of the awaited steps of one `processMessage` call, each an
oracle (`Except.error` = the step threw).  `agentEvents` are the SSE
events the tier-1 run wrote to the stream before it returned or threw. -/
structure ChatEnv where
  reqConversationId : Option String
  getConversation : Except ChatErr Unit
  createConversation : Except ChatErr String
  saveUserMessage : Except ChatErr String
  getContextLen : Except ChatErr Nat
  agentEvents : List SSEEvt
  agentOutcome : Except ChatErr String
  saveAssistantMessage : Except ChatErr String

/-- Step 1 of `processMessage`: resolve the conversation id — verify an
existing conversation, or create a new one. -/
def convOutcome (env : ChatEnv) : Except ChatErr String :=
  match env.reqConversationId with
  | some cid => env.getConversation.map (fun _ => cid)
  | none => env.createConversation

namespace ChatService

/-- `ChatService.processMessage`: the ordered list of events written to
the SSE stream, and whether the stream was closed (the `finally`
block).  Any step that throws skips the rest of the `try` block and the
`catch` sends exactly one `error` event. -/
def processMessage (env : ChatEnv) : List SSEEvt × Bool :=
  match convOutcome env with
  | .error e => ([chatErrEvent e], true)
  | .ok conversationId =>
    let evs1 := [SSEEvt.thinking "agent_reasoning" "Saving your message..."]
    match env.saveUserMessage with
    | .error e => (evs1 ++ [chatErrEvent e], true)
    | .ok _ =>
      let evs2 := evs1 ++ [SSEEvt.thinking "agent_reasoning" "Loading conversation history..."]
      match env.getContextLen with
      | .error e => (evs2 ++ [chatErrEvent e], true)
      | .ok contextLen =>
        let evs3 := evs2 ++ [SSEEvt.thinking "agent_reasoning" "Processing with AI agents..."]
            ++ env.agentEvents
        match env.agentOutcome with
        | .error e => (evs3 ++ [chatErrEvent e], true)
        | .ok response =>
          match env.saveAssistantMessage with
          | .error e => (evs3 ++ [chatErrEvent e], true)
          | .ok assistantMessageId =>
              (evs3 ++ [SSEEvt.message response assistantMessageId,
                        SSEEvt.done conversationId (contextLen + 2)], true)

end ChatService

/-- Terminal events of the outbound protocol: `done` closes a
successful run, `error` a failed one. -/
def SSEEvt.isTerminal : SSEEvt → Bool
  | .done _ _ => true
  | .error _ _ => true
  | _ => false

/-- Number of terminal events in a trace. -/
def terminalCount (tr : List SSEEvt) : Nat :=
  (tr.filter SSEEvt.isTerminal).length

/-! # Theorems -/

/-! ## Cache claims (C8, C10) -/

/-- Reading the key just written by `CacheService.set` yields the written
value while the effective TTL has not elapsed, and `null` afterwards. -/
theorem CacheService.get_set_self (cfg : CacheConfig) (st : RedisStore) (now t : Nat)
    (layer : CacheLayer) (key : String) (v : JVal) (ttlO : Option Nat) :
    CacheService.get (CacheService.set cfg st now layer key v ttlO) t layer key =
      if t < now + CacheService.effectiveTTL cfg layer ttlO then v else JVal.null := by
  simp only [CacheService.get, CacheService.set, redisGet, redisSetex]
  rw [List.find?_cons_of_pos _ (by simp)]
  by_cases h : t < now + CacheService.effectiveTTL cfg layer ttlO <;> simp [h]

/-- Unfolding `getOrSet` on a miss (`get` returned `null`). -/
theorem CacheService.getOrSet_miss (cfg : CacheConfig) (st : RedisStore) (now : Nat)
    (layer : CacheLayer) (key : String) (fetchFn : JVal) (ttlO : Option Nat)
    (h : (CacheService.get st now layer key).isNull = true) :
    CacheService.getOrSet cfg st now layer key fetchFn ttlO =
      ⟨fetchFn, CacheService.set cfg st now layer key fetchFn ttlO, true⟩ := by
  simp [CacheService.getOrSet, h]

/-- Unfolding `getOrSet` on a hit (`get` returned a non-`null` value). -/
theorem CacheService.getOrSet_hit (cfg : CacheConfig) (st : RedisStore) (now : Nat)
    (layer : CacheLayer) (key : String) (fetchFn : JVal) (ttlO : Option Nat)
    (h : (CacheService.get st now layer key).isNull = false) :
    CacheService.getOrSet cfg st now layer key fetchFn ttlO =
      ⟨CacheService.get st now layer key, st, false⟩ := by
  simp [CacheService.getOrSet, h]

/-- C8 (amended): two sequential `getOrSet` calls on the same
layer and key within the effective TTL window invoke the compute
function at most once in total, provided the computed value is not
`null`; a hit returns the stored value without computing, and a miss
computes once and stores the result with the layer default TTL or the
supplied override.  (For a `null`-valued compute function the
at-most-once part fails; see the counterexample.) -/
theorem cache_getOrSet_compute_at_most_once (cfg : CacheConfig) (st : RedisStore)
    (layer : CacheLayer) (key : String) (fetchFn : JVal) (ttlO : Option Nat) (t1 t2 : Nat)
    (_hseq : t1 ≤ t2) (hwin : t2 < t1 + CacheService.effectiveTTL cfg layer ttlO)
    (hnn : fetchFn.isNull = false) :
    (¬((CacheService.getOrSet cfg st t1 layer key fetchFn ttlO).invokedFetch = true ∧
        (CacheService.getOrSet cfg (CacheService.getOrSet cfg st t1 layer key fetchFn ttlO).store
          t2 layer key fetchFn ttlO).invokedFetch = true)) ∧
    ((CacheService.getOrSet cfg st t1 layer key fetchFn ttlO).invokedFetch = false →
      (CacheService.getOrSet cfg st t1 layer key fetchFn ttlO).value =
          CacheService.get st t1 layer key ∧
      (CacheService.getOrSet cfg st t1 layer key fetchFn ttlO).store = st) ∧
    ((CacheService.getOrSet cfg st t1 layer key fetchFn ttlO).invokedFetch = true →
      (CacheService.getOrSet cfg st t1 layer key fetchFn ttlO).value = fetchFn ∧
      (CacheService.getOrSet cfg st t1 layer key fetchFn ttlO).store =
        CacheService.set cfg st t1 layer key fetchFn ttlO) := by
  by_cases h : (CacheService.get st t1 layer key).isNull
  · rw [CacheService.getOrSet_miss cfg st t1 layer key fetchFn ttlO h]
    have hget : CacheService.get (CacheService.set cfg st t1 layer key fetchFn ttlO)
        t2 layer key = fetchFn := by
      rw [CacheService.get_set_self]
      simp [hwin]
    refine ⟨?_, ?_, fun _ => ⟨rfl, rfl⟩⟩
    · rintro ⟨-, h2⟩
      rw [show (⟨fetchFn, CacheService.set cfg st t1 layer key fetchFn ttlO, true⟩ :
            CacheService.GetOrSetResult).store =
          CacheService.set cfg st t1 layer key fetchFn ttlO from rfl,
        CacheService.getOrSet_hit cfg _ t2 layer key fetchFn ttlO (by rw [hget]; exact hnn)] at h2
      exact Bool.false_ne_true h2
    · intro hfalse
      exact absurd hfalse (by simp)
  · rw [CacheService.getOrSet_hit cfg st t1 layer key fetchFn ttlO (by simpa using h)]
    refine ⟨?_, fun _ => ⟨rfl, rfl⟩, ?_⟩
    · rintro ⟨h1, -⟩
      exact Bool.false_ne_true h1
    · intro htrue
      exact absurd htrue (by simp)

/-- C8 witness: within the session-layer TTL window, a second call after
a miss does not invoke the compute function again. -/
theorem cache_getOrSet_compute_at_most_once_witness :
    (0 : Nat) ≤ 10 ∧
    10 < 0 + CacheService.effectiveTTL ⟨1800, 86400, 604800⟩ CacheLayer.session none ∧
    (JVal.str "v").isNull = false ∧
    ¬((CacheService.getOrSet ⟨1800, 86400, 604800⟩ [] 0 CacheLayer.session "k"
          (JVal.str "v") none).invokedFetch = true ∧
      (CacheService.getOrSet ⟨1800, 86400, 604800⟩
          (CacheService.getOrSet ⟨1800, 86400, 604800⟩ [] 0 CacheLayer.session "k"
            (JVal.str "v") none).store 10 CacheLayer.session "k"
          (JVal.str "v") none).invokedFetch = true) :=
  ⟨by decide, by decide, rfl,
    (cache_getOrSet_compute_at_most_once ⟨1800, 86400, 604800⟩ [] CacheLayer.session "k"
      (JVal.str "v") none 0 10 (by decide) (by decide) rfl).1⟩

/-- C8 counterexample: with a compute function resolving to `null`, two
`getOrSet` calls on the same layer and key, the second well inside the
TTL window of the first, both invoke the compute function — the claimed
at-most-once bound fails because `get` conflates a cached `null` with a
miss. -/
theorem cache_getOrSet_null_invokes_twice :
    (CacheService.getOrSet ⟨1800, 86400, 604800⟩ [] 0 CacheLayer.session "k"
        JVal.null none).invokedFetch = true ∧
    (CacheService.getOrSet ⟨1800, 86400, 604800⟩
        (CacheService.getOrSet ⟨1800, 86400, 604800⟩ [] 0 CacheLayer.session "k"
          JVal.null none).store 10 CacheLayer.session "k" JVal.null none).invokedFetch = true ∧
    10 < 0 + CacheService.effectiveTTL ⟨1800, 86400, 604800⟩ CacheLayer.session none :=
  ⟨rfl, rfl, by decide⟩

/-- C10: when the compute function resolves to `null` on a miss,
`getOrSet` stores that `null`, yet `get` keeps returning `null` for the
key at any later time, so every subsequent `getOrSet` for the same
layer and key invokes its compute function again: `null` results are
never served from the cache. -/
theorem cache_null_results_never_served (cfg : CacheConfig) (st : RedisStore) (now : Nat)
    (layer : CacheLayer) (key : String) (ttlO : Option Nat)
    (hmiss : (CacheService.get st now layer key).isNull = true) :
    (CacheService.getOrSet cfg st now layer key JVal.null ttlO).invokedFetch = true ∧
    (CacheService.getOrSet cfg st now layer key JVal.null ttlO).store =
      CacheService.set cfg st now layer key JVal.null ttlO ∧
    (∀ t2, CacheService.get (CacheService.getOrSet cfg st now layer key JVal.null ttlO).store
        t2 layer key = JVal.null) ∧
    (∀ t2 (g : JVal) (ttlO2 : Option Nat),
      (CacheService.getOrSet cfg (CacheService.getOrSet cfg st now layer key JVal.null ttlO).store
        t2 layer key g ttlO2).invokedFetch = true) := by
  rw [CacheService.getOrSet_miss cfg st now layer key JVal.null ttlO hmiss]
  have hget : ∀ t2, CacheService.get (CacheService.set cfg st now layer key JVal.null ttlO)
      t2 layer key = JVal.null := by
    intro t2
    rw [CacheService.get_set_self]
    split <;> rfl
  refine ⟨rfl, rfl, hget, ?_⟩
  intro t2 g ttlO2
  rw [show (⟨JVal.null, CacheService.set cfg st now layer key JVal.null ttlO, true⟩ :
        CacheService.GetOrSetResult).store =
      CacheService.set cfg st now layer key JVal.null ttlO from rfl,
    CacheService.getOrSet_miss cfg _ t2 layer key g ttlO2 (by rw [hget t2]; rfl)]

/-- C10 witness: a concrete miss followed by a `null` compute. -/
theorem cache_null_results_never_served_witness :
    (CacheService.get [] 0 CacheLayer.session "k").isNull = true ∧
    (CacheService.getOrSet ⟨1800, 86400, 604800⟩ [] 0 CacheLayer.session "k"
        JVal.null none).invokedFetch = true :=
  ⟨rfl, (cache_null_results_never_served ⟨1800, 86400, 604800⟩ [] 0 CacheLayer.session "k"
    none rfl).1⟩

/-! ## Validation claim (C9) -/

/-- C9: for every content string, content type and supplied
compliance-rule set, `executeValidateContent` succeeds and returns a
status that is `failed` iff at least one issue was found, `warning` iff
no issue but at least one warning was found, and `passed` otherwise,
together with the itemized issue and warning lists; no other status
value ever occurs. -/
theorem validate_content_tristate (content contentType : String) (canonRules : List String) :
    (executeValidateContent content contentType canonRules).success = true ∧
    (∃ s, (executeValidateContent content contentType canonRules).metadata.validationStatus =
        some s ∧ (s = "passed" ∨ s = "warning" ∨ s = "failed")) ∧
    ((executeValidateContent content contentType canonRules).metadata.validationStatus =
        some "failed" ↔
      (executeValidateContent content contentType canonRules).metadata.issues ≠ []) ∧
    ((executeValidateContent content contentType canonRules).metadata.validationStatus =
        some "warning" ↔
      (executeValidateContent content contentType canonRules).metadata.issues = [] ∧
      (executeValidateContent content contentType canonRules).metadata.warnings ≠ []) ∧
    ((executeValidateContent content contentType canonRules).metadata.validationStatus =
        some "passed" ↔
      (executeValidateContent content contentType canonRules).metadata.issues = [] ∧
      (executeValidateContent content contentType canonRules).metadata.warnings = []) := by
  unfold executeValidateContent
  by_cases hi : (canonRules.foldl (validateRuleStep content contentType) ([], [])).1 = [] <;>
    by_cases hw : (canonRules.foldl (validateRuleStep content contentType) ([], [])).2 = [] <;>
      simp [hi, hw]

/-! ## Decoder claims (C2, C4) -/

/-- Concatenation of a list of strings, in order. -/
def concatStrs : List String → String
  | [] => ""
  | s :: ss => s ++ concatStrs ss

/-- `JSON.parse(buf || '{}')`: the empty (or never-assigned) buffer
takes the hardcoded `'{}'` literal, whose parse is the empty object. -/
def jsParse (parse : String → Option JVal) (s : String) : Option JVal :=
  if s = "" then some (JVal.obj []) else parse s

/-- The text chunks (`text_delta` payloads) of an increment stream, in
order. -/
def textChunksOf (evs : List StreamEvent) : List String :=
  evs.filterMap fun e =>
    match e with
    | .textDelta c => some c
    | _ => none

/-- The live-streamed chunk payloads of an SSE trace: the contents of
`message` events with `messageId: 'streaming'`, in order. -/
def streamedChunksOf (tr : List SSEEvt) : List String :=
  tr.filterMap fun e =>
    match e with
    | .message c mid => if mid = "streaming" then some c else none
    | _ => none

/-- One decode step adds exactly the step's own `text_delta` payload (if
any) to `fullResponse`. -/
theorem decodeStep_fullResponse (parse : String → Option JVal) (st : DecodeState)
    (e : StreamEvent) :
    (decodeStep parse st e).fullResponse = st.fullResponse ++ concatStrs (textChunksOf [e]) := by
  cases e <;>
    simp only [decodeStep, textChunksOf, List.filterMap, concatStrs] <;>
    (try split) <;> (try split) <;>
    simp [String.append_empty, String.append_assoc]

/-- One decode step forwards exactly the step's own `text_delta` payload
(if any) to the stream as a `streaming` chunk. -/
theorem decodeStep_streamedChunks (parse : String → Option JVal) (st : DecodeState)
    (e : StreamEvent) :
    streamedChunksOf (decodeStep parse st e).emitted =
      streamedChunksOf st.emitted ++ textChunksOf [e] := by
  cases e <;>
    simp only [decodeStep, textChunksOf, List.filterMap] <;>
    (try split) <;> (try split) <;>
    simp [streamedChunksOf, List.filterMap_append]

/-- Concatenation distributes over list append. -/
theorem concatStrs_append (a b : List String) :
    concatStrs (a ++ b) = concatStrs a ++ concatStrs b := by
  induction a with
  | nil => simp [concatStrs, String.empty_append]
  | cons s ss ih => simp [concatStrs, ih, String.append_assoc]

/-- Splitting the head off `textChunksOf`. -/
theorem textChunksOf_cons (e : StreamEvent) (rest : List StreamEvent) :
    textChunksOf (e :: rest) = textChunksOf [e] ++ textChunksOf rest := by
  cases e <;> simp [textChunksOf]

/-- Invariant form of C4 over any starting state. -/
theorem decode_text_invariant (parse : String → Option JVal) :
    ∀ (evs : List StreamEvent) (st : DecodeState),
      (decodeEvents parse evs st).fullResponse =
        st.fullResponse ++ concatStrs (textChunksOf evs) ∧
      streamedChunksOf (decodeEvents parse evs st).emitted =
        streamedChunksOf st.emitted ++ textChunksOf evs := by
  intro evs
  induction evs with
  | nil =>
      intro st
      simp [decodeEvents, textChunksOf, streamedChunksOf, concatStrs, String.append_empty]
  | cons e rest ih =>
      intro st
      have hrest := ih (decodeStep parse st e)
      have hstepEq : decodeEvents parse (e :: rest) st =
          decodeEvents parse rest (decodeStep parse st e) := rfl
      constructor
      · rw [hstepEq, hrest.1, decodeStep_fullResponse, String.append_assoc,
          ← concatStrs_append, ← textChunksOf_cons e rest]
      · rw [hstepEq, hrest.2, decodeStep_streamedChunks, List.append_assoc,
          ← textChunksOf_cons e rest]

/-- C4: for every model-turn increment stream, the assembled
`fullResponse` equals the in-order concatenation of all `text_delta`
chunks, and the `streaming` chunk events forwarded to the outbound
stream are exactly those chunks in order — this holds for every prefix
of the stream (the quantification is over arbitrary event lists), so
each chunk is forwarded at the step that appends it. -/
theorem decoder_streams_text_exactly (parse : String → Option JVal) (evs : List StreamEvent) :
    (decodeEvents parse evs {}).fullResponse = concatStrs (textChunksOf evs) ∧
    streamedChunksOf (decodeEvents parse evs {}).emitted = textChunksOf evs := by
  have h := decode_text_invariant parse evs {}
  constructor
  · rw [h.1]
    exact String.empty_append _
  · rw [h.2]
    rfl

/-- The accumulation `inputJson = (inputJson || '') + partial` over a
fragment list. -/
def accumJson : Option String → List String → Option String
  | j, [] => j
  | j, f :: fs => accumJson (some (j.getD "" ++ f)) fs

/-- The accumulated buffer reads back as the plain concatenation of the
fragments. -/
theorem accumJson_getD (frags : List String) :
    ∀ j : Option String, (accumJson j frags).getD "" = j.getD "" ++ concatStrs frags := by
  induction frags with
  | nil => intro j; simp [accumJson, concatStrs, String.append_empty]
  | cons f fs ih =>
      intro j
      rw [show accumJson j (f :: fs) = accumJson (some (j.getD "" ++ f)) fs from rfl, ih]
      simp [concatStrs, String.append_assoc]

/-- Folding a run of `input_json_delta` increments only accumulates the
argument buffer of the current tool-use block. -/
theorem decode_inputJsonDeltas (parse : String → Option JVal) :
    ∀ (frags : List String) (st : DecodeState) (ctu : PartialToolUse),
      st.currentToolUse = some ctu →
      decodeEvents parse (frags.map StreamEvent.inputJsonDelta) st =
        { st with currentToolUse := some { ctu with inputJson := accumJson ctu.inputJson frags } } := by
  intro frags
  induction frags with
  | nil =>
      intro st ctu h
      cases st
      cases ctu
      simp_all [decodeEvents, accumJson]
  | cons f fs ih =>
      intro st ctu h
      have hstep : decodeStep parse st (StreamEvent.inputJsonDelta f) =
          { st with
            currentToolUse := some { ctu with inputJson := some (ctu.inputJson.getD "" ++ f) } } := by
        simp [decodeStep, h]
      rw [show decodeEvents parse ((f :: fs).map StreamEvent.inputJsonDelta) st =
            decodeEvents parse (fs.map StreamEvent.inputJsonDelta)
              (decodeStep parse st (StreamEvent.inputJsonDelta f)) from rfl,
        hstep, ih _ _ rfl]
      rfl

/-- A tool handler that emits nothing and reports plain success; used to
instantiate the registry oracles in concrete runs. -/
def okHandler : JVal → List SSEEvt × Except String ToolExecutionResult :=
  fun _ => ([], .ok { success := true, content := "ok" })

/-- A registry environment whose five handlers are all `okHandler`. -/
def trivialEnv : ToolEnv :=
  ⟨okHandler, okHandler, okHandler, okHandler, okHandler⟩

/-- Provider oracle for the malformed-arguments scenario: the first
model turn streams one tool-use block whose argument fragments read
`oops` (not valid JSON) and stops with `tool_use`; there is no second
turn because the loop finalizes. -/
def malformedOracle : Nat → List StreamEvent := fun n =>
  if n = 1 then
    [StreamEvent.contentBlockStartTool "toolu_1" "web_search",
     StreamEvent.inputJsonDelta "oops",
     StreamEvent.contentBlockStop,
     StreamEvent.messageDelta 0 (some "tool_use")]
  else []

/-- C2 (amended): for a tool-use content block whose streamed fragments
concatenate to `s`, the decoder produces exactly one finished invocation
with arguments `JSON.parse(s || '{}')` whenever that parse succeeds
(this includes the empty buffer, which parses as the empty object); when
the parse fails, it produces zero invocations for the block and the
invocation is discarded with only a log entry — no failed tool-result
is appended to the conversation, and a run whose only decoded block is
malformed records no tool result at all and finalizes. -/
theorem decoder_tool_arguments (parse : String → Option JVal) (id name : String)
    (frags : List String) (st : DecodeState) :
    ((∀ v, jsParse parse (concatStrs frags) = some v →
        (decodeEvents parse
            (StreamEvent.contentBlockStartTool id name ::
              (frags.map StreamEvent.inputJsonDelta ++ [StreamEvent.contentBlockStop]))
            st).toolUseBlocks =
          st.toolUseBlocks ++ [⟨id, name, v⟩]) ∧
      (jsParse parse (concatStrs frags) = none →
        (decodeEvents parse
            (StreamEvent.contentBlockStartTool id name ::
              (frags.map StreamEvent.inputJsonDelta ++ [StreamEvent.contentBlockStop]))
            st).toolUseBlocks = st.toolUseBlocks)) ∧
    ((Tier1Orchestrator.run (fun _ => none) trivialEnv malformedOracle {}).state.toolResults = [] ∧
      (Tier1Orchestrator.run (fun _ => none) trivialEnv malformedOracle
        {}).state.conversationContext = [] ∧
      (Tier1Orchestrator.run (fun _ => none) trivialEnv malformedOracle {}).logs =
        [⟨[], false, false⟩]) := by
  have hsplit : decodeEvents parse
      (StreamEvent.contentBlockStartTool id name ::
        (frags.map StreamEvent.inputJsonDelta ++ [StreamEvent.contentBlockStop])) st =
      decodeEvents parse [StreamEvent.contentBlockStop]
        (decodeEvents parse (frags.map StreamEvent.inputJsonDelta)
          (decodeStep parse st (StreamEvent.contentBlockStartTool id name))) := by
    simp [decodeEvents, List.foldl_append]
  have hmid := decode_inputJsonDeltas parse frags
    (decodeStep parse st (StreamEvent.contentBlockStartTool id name)) ⟨id, name, none⟩ rfl
  have hbuf : (accumJson (none : Option String) frags).getD "" = concatStrs frags := by
    rw [accumJson_getD]
    exact String.empty_append _
  have hstop : ∀ (S : DecodeState) (ij : Option String),
      S.currentToolUse = some ⟨id, name, ij⟩ →
      decodeStep parse S StreamEvent.contentBlockStop =
        match jsParse parse (ij.getD "") with
        | some v =>
            { S with contentBlocks := setLastToolInput S.contentBlocks v,
                     toolUseBlocks := S.toolUseBlocks ++ [⟨id, name, v⟩],
                     currentToolUse := none }
        | none => { S with currentToolUse := none } := by
    intro S ij hS
    simp [decodeStep, hS, jsParse]
  constructor
  · constructor
    · intro v hv
      rw [hsplit, hmid,
        show decodeEvents parse [StreamEvent.contentBlockStop]
            ({ decodeStep parse st (StreamEvent.contentBlockStartTool id name) with
               currentToolUse := some ⟨id, name, accumJson none frags⟩ }) =
          decodeStep parse
            ({ decodeStep parse st (StreamEvent.contentBlockStartTool id name) with
               currentToolUse := some ⟨id, name, accumJson none frags⟩ })
            StreamEvent.contentBlockStop from rfl,
        hstop _ (accumJson none frags) rfl, hbuf, hv]
      rfl
    · intro hv
      rw [hsplit, hmid,
        show decodeEvents parse [StreamEvent.contentBlockStop]
            ({ decodeStep parse st (StreamEvent.contentBlockStartTool id name) with
               currentToolUse := some ⟨id, name, accumJson none frags⟩ }) =
          decodeStep parse
            ({ decodeStep parse st (StreamEvent.contentBlockStartTool id name) with
               currentToolUse := some ⟨id, name, accumJson none frags⟩ })
            StreamEvent.contentBlockStop from rfl,
        hstop _ (accumJson none frags) rfl, hbuf, hv]
      rfl
  · exact ⟨rfl, rfl, rfl⟩

/-- C2 witness: fragments `[1` and `]` concatenate to valid JSON and
yield exactly one finished invocation with the parsed array as
arguments. -/
theorem decoder_tool_arguments_witness :
    jsParse (fun s => if s = "[1]" then some (JVal.arr [JVal.num 1]) else none)
        (concatStrs ["[1", "]"]) = some (JVal.arr [JVal.num 1]) ∧
    (decodeEvents (fun s => if s = "[1]" then some (JVal.arr [JVal.num 1]) else none)
        (StreamEvent.contentBlockStartTool "t1" "web_search" ::
          (["[1", "]"].map StreamEvent.inputJsonDelta ++ [StreamEvent.contentBlockStop]))
        {}).toolUseBlocks =
      [⟨"t1", "web_search", JVal.arr [JVal.num 1]⟩] :=
  ⟨rfl,
    (decoder_tool_arguments (fun s => if s = "[1]" then some (JVal.arr [JVal.num 1]) else none)
      "t1" "web_search" ["[1", "]"] {}).1.1 (JVal.arr [JVal.num 1]) rfl⟩

/-- C2 counterexample: a run whose only tool-use block streams the
non-JSON fragment `oops` records zero invocations (log entry
`⟨[], false, false⟩`) and appends zero failed tool-results — not the
one `malformed-tool-arguments` result the claim asserts — and the loop
finalizes instead of continuing. -/
theorem decoder_malformed_counterexample :
    (Tier1Orchestrator.run (fun _ => none) trivialEnv malformedOracle {}).logs =
      [⟨[], false, false⟩] ∧
    ((Tier1Orchestrator.run (fun _ => none) trivialEnv malformedOracle
        {}).state.toolResults.filter (fun r => r.isError)).length = 0 ∧
    ¬(((Tier1Orchestrator.run (fun _ => none) trivialEnv malformedOracle
        {}).state.toolResults.filter (fun r => r.isError)).length = 1) := by
  have h0 : ((Tier1Orchestrator.run (fun _ => none) trivialEnv malformedOracle
      {}).state.toolResults.filter (fun r => r.isError)).length = 0 := rfl
  exact ⟨rfl, h0, by rw [h0]; decide⟩

/-! ## Control-loop claims (C1, C3) -/

/-- Unfolding equation of `runAux` at zero fuel. -/
theorem runAux_zero_eq (parse : String → Option JVal) (env : ToolEnv)
    (oracle : Nat → List StreamEvent) (st : AgentState) (lc : Nat) :
    runAux parse env oracle st lc 0 = (st, lc, [], []) := rfl

/-- Unfolding equation of `runAux` at positive fuel. -/
theorem runAux_succ_eq (parse : String → Option JVal) (env : ToolEnv)
    (oracle : Nat → List StreamEvent) (st : AgentState) (lc fuel : Nat) :
    runAux parse env oracle st lc (fuel + 1) =
      if (runIter parse env (oracle (lc + 1)) st (lc + 1)).continueLoop then
        ((runAux parse env oracle (runIter parse env (oracle (lc + 1)) st (lc + 1)).state
            (lc + 1) fuel).1,
         (runAux parse env oracle (runIter parse env (oracle (lc + 1)) st (lc + 1)).state
            (lc + 1) fuel).2.1,
         (runIter parse env (oracle (lc + 1)) st (lc + 1)).log ::
           (runAux parse env oracle (runIter parse env (oracle (lc + 1)) st (lc + 1)).state
              (lc + 1) fuel).2.2.1,
         (runIter parse env (oracle (lc + 1)) st (lc + 1)).events ++
           (runAux parse env oracle (runIter parse env (oracle (lc + 1)) st (lc + 1)).state
              (lc + 1) fuel).2.2.2)
      else ((runIter parse env (oracle (lc + 1)) st (lc + 1)).state, lc + 1,
            [(runIter parse env (oracle (lc + 1)) st (lc + 1)).log],
            (runIter parse env (oracle (lc + 1)) st (lc + 1)).events) := rfl

/-- The loop counter grows by at most the remaining fuel. -/
theorem runAux_loopCount_le (parse : String → Option JVal) (env : ToolEnv)
    (oracle : Nat → List StreamEvent) :
    ∀ (fuel : Nat) (st : AgentState) (lc : Nat),
      (runAux parse env oracle st lc fuel).2.1 ≤ lc + fuel := by
  intro fuel
  induction fuel with
  | zero => intro st lc; rw [runAux_zero_eq]; simp
  | succ n ih =>
      intro st lc
      rw [runAux_succ_eq]
      by_cases hc : (runIter parse env (oracle (lc + 1)) st (lc + 1)).continueLoop = true
      · rw [if_pos hc]
        dsimp only
        exact le_trans (ih _ _) (by omega)
      · rw [if_neg hc]
        dsimp only
        omega

/-- C1: for every provider-stream oracle, registry environment, JSON
parser and starting state, `Tier1Orchestrator.run` reaches its terminal
state with `loopCount ≤ 5` — the `while (continueLoop && loopCount <
maxLoops)` guard caps model-turn iterations at `maxLoops = 5` no matter
how many tool rounds the model requests. -/
theorem run_loopCount_le_five (parse : String → Option JVal) (env : ToolEnv)
    (oracle : Nat → List StreamEvent) (st : AgentState) :
    (Tier1Orchestrator.run parse env oracle st).loopCount ≤ 5 :=
  runAux_loopCount_le parse env oracle maxLoops st 0

/-- Membership in the logged tool names matches the `some(...)` test the
loop performs on the decoded blocks. -/
theorem mem_map_name_iff_any (s : String) (blocks : List ToolUse) :
    s ∈ blocks.map (fun t => t.name) ↔ blocks.any (fun t => t.name == s) = true := by
  rw [List.any_eq_true]
  constructor
  · intro h
    rcases List.mem_map.mp h with ⟨t, ht, hts⟩
    exact ⟨t, ht, by rw [hts]; exact beq_self_eq_true s⟩
  · rintro ⟨t, ht, hbeq⟩
    exact List.mem_map.mpr ⟨t, ht, eq_of_beq hbeq⟩

/-- Value of the continue flag of one loop iteration: the round
dispatched tools and the stop condition did not fire. -/
theorem runIterCore_continueLoop (env : ToolEnv) (ds : DecodeState) (st : AgentState)
    (lc : Nat) :
    (runIterCore env ds st lc).continueLoop =
      ((!ds.toolUseBlocks.isEmpty && ds.stopReason == "tool_use") &&
        !(ds.toolUseBlocks.any (fun t => t.name == "validate_content") ||
          (ds.toolUseBlocks.any (fun t => t.name == "content_execution") &&
            decide (2 ≤ lc)))) := by
  cases hA : (!ds.toolUseBlocks.isEmpty && ds.stopReason == "tool_use") <;>
    cases hB : (ds.toolUseBlocks.any (fun t => t.name == "validate_content") ||
      (ds.toolUseBlocks.any (fun t => t.name == "content_execution") && decide (2 ≤ lc))) <;>
      simp [runIterCore, hA, hB]

/-- The logged tool names of one loop iteration are always the names of
the decoded invocations. -/
theorem runIterCore_log_toolNames (env : ToolEnv) (ds : DecodeState) (st : AgentState)
    (lc : Nat) :
    (runIterCore env ds st lc).log.toolNames = ds.toolUseBlocks.map (fun t => t.name) := by
  cases hA : (!ds.toolUseBlocks.isEmpty && ds.stopReason == "tool_use") <;>
    cases hB : (ds.toolUseBlocks.any (fun t => t.name == "validate_content") ||
      (ds.toolUseBlocks.any (fun t => t.name == "content_execution") && decide (2 ≤ lc))) <;>
      simp [runIterCore, hA, hB]

/-- If a loop iteration decides to continue, that round neither
dispatched `validate_content` nor dispatched `content_execution` at
iteration number ≥ 2. -/
theorem runIter_continue_imp (parse : String → Option JVal) (env : ToolEnv)
    (evs : List StreamEvent) (st : AgentState) (lc : Nat)
    (hc : (runIter parse env evs st lc).continueLoop = true) :
    ¬("validate_content" ∈ (runIter parse env evs st lc).log.toolNames ∨
      ("content_execution" ∈ (runIter parse env evs st lc).log.toolNames ∧ 2 ≤ lc)) := by
  intro hcond
  have hEq : runIter parse env evs st lc =
      runIterCore env (decodeEvents parse evs {}) st lc := rfl
  rw [hEq, runIterCore_continueLoop] at hc
  have hB : ((decodeEvents parse evs {}).toolUseBlocks.any
        (fun t => t.name == "validate_content") ||
      ((decodeEvents parse evs {}).toolUseBlocks.any
          (fun t => t.name == "content_execution") && decide (2 ≤ lc))) = false := by
    cases hOr : ((decodeEvents parse evs {}).toolUseBlocks.any
        (fun t => t.name == "validate_content") ||
      ((decodeEvents parse evs {}).toolUseBlocks.any
          (fun t => t.name == "content_execution") && decide (2 ≤ lc)))
    · rfl
    · rw [hOr] at hc
      simp at hc
  rw [hEq, runIterCore_log_toolNames] at hcond
  rcases Bool.or_eq_false_iff.mp hB with ⟨hB1, hB2⟩
  rcases hcond with hval | ⟨hce, hlc⟩
  · have h1 := (mem_map_name_iff_any _ _).mp hval
    rw [hB1] at h1
    exact Bool.false_ne_true h1
  · have h2 := (mem_map_name_iff_any _ _).mp hce
    rw [h2, decide_eq_true hlc] at hB2
    simp at hB2

/-- A round satisfying the stop condition is the final round of the
`runAux` recursion. -/
theorem runAux_stop_round (parse : String → Option JVal) (env : ToolEnv)
    (oracle : Nat → List StreamEvent) :
    ∀ (fuel : Nat) (st : AgentState) (lc i : Nat),
      i < (runAux parse env oracle st lc fuel).2.2.1.length →
      ("validate_content" ∈
          ((runAux parse env oracle st lc fuel).2.2.1.getD i ⟨[], false, false⟩).toolNames ∨
        ("content_execution" ∈
            ((runAux parse env oracle st lc fuel).2.2.1.getD i ⟨[], false, false⟩).toolNames ∧
          2 ≤ lc + i + 1)) →
      (runAux parse env oracle st lc fuel).2.2.1.length = i + 1 := by
  intro fuel
  induction fuel with
  | zero =>
      intro st lc i hi _
      rw [runAux_zero_eq] at hi
      simp at hi
  | succ n ih =>
      intro st lc i hi hcond
      rw [runAux_succ_eq] at hi hcond ⊢
      by_cases hc : (runIter parse env (oracle (lc + 1)) st (lc + 1)).continueLoop = true
      · rw [if_pos hc] at hi hcond ⊢
        dsimp only at hi hcond ⊢
        cases i with
        | zero =>
            exfalso
            apply runIter_continue_imp parse env (oracle (lc + 1)) st (lc + 1) hc
            simpa using hcond
        | succ j =>
            rw [List.getD_cons_succ] at hcond
            rw [List.length_cons] at hi ⊢
            have h2 := ih (runIter parse env (oracle (lc + 1)) st (lc + 1)).state (lc + 1) j
              (by omega)
              (by rcases hcond with h | ⟨h, hn⟩
                  · exact Or.inl h
                  · exact Or.inr ⟨h, by omega⟩)
            omega
      · rw [if_neg hc] at hi ⊢
        dsimp only at hi ⊢
        simp only [List.length_singleton] at hi ⊢
        omega

/-- C3 (corrected): the loop's actual stop rule is per-round — a round
whose decoded invocations include `validate_content`, or include
`content_execution` at iteration number ≥ 2, is always the last round
of the run.  (The claimed global rule — at most one further dispatching
round once `content_execution` has been dispatched and a second
iteration has completed — does not hold: `hasContentExecution` is
recomputed from the current round only, so a round-1 generation call
followed by other tools lets the loop dispatch until the 5-iteration
cap; see the counterexample.) -/
theorem run_stop_round_is_final (parse : String → Option JVal) (env : ToolEnv)
    (oracle : Nat → List StreamEvent) (st : AgentState) (i : Nat)
    (hi : i < (Tier1Orchestrator.run parse env oracle st).logs.length)
    (hcond : "validate_content" ∈
        ((Tier1Orchestrator.run parse env oracle st).logs.getD i ⟨[], false, false⟩).toolNames ∨
      ("content_execution" ∈
          ((Tier1Orchestrator.run parse env oracle st).logs.getD i ⟨[], false, false⟩).toolNames ∧
        1 ≤ i)) :
    (Tier1Orchestrator.run parse env oracle st).logs.length = i + 1 := by
  have hlogs : (Tier1Orchestrator.run parse env oracle st).logs =
      (runAux parse env oracle st 0 maxLoops).2.2.1 := rfl
  rw [hlogs] at hi hcond ⊢
  exact runAux_stop_round parse env oracle maxLoops st 0 i hi
    (by rcases hcond with h | ⟨h, hj⟩
        · exact Or.inl h
        · exact Or.inr ⟨h, by omega⟩)

/-- Provider oracle: round 1 requests `content_execution`, round 2
requests `validate_content`; used to witness the stop rule. -/
def genThenValidateOracle : Nat → List StreamEvent := fun n =>
  if n = 1 then
    [StreamEvent.contentBlockStartTool "c1" "content_execution",
     StreamEvent.contentBlockStop,
     StreamEvent.messageDelta 0 (some "tool_use")]
  else
    [StreamEvent.contentBlockStartTool "v1" "validate_content",
     StreamEvent.contentBlockStop,
     StreamEvent.messageDelta 0 (some "tool_use")]

/-- C3 witness: a concrete run whose second round dispatches
`validate_content` ends at that round. -/
theorem run_stop_round_is_final_witness :
    1 < (Tier1Orchestrator.run (fun _ => none) trivialEnv genThenValidateOracle {}).logs.length ∧
    "validate_content" ∈
      ((Tier1Orchestrator.run (fun _ => none) trivialEnv genThenValidateOracle {}).logs.getD 1
        ⟨[], false, false⟩).toolNames ∧
    (Tier1Orchestrator.run (fun _ => none) trivialEnv genThenValidateOracle {}).logs.length = 2 := by
  have hlogs : (Tier1Orchestrator.run (fun _ => none) trivialEnv genThenValidateOracle {}).logs =
      [⟨["content_execution"], true, true⟩, ⟨["validate_content"], true, false⟩] := rfl
  refine ⟨by rw [hlogs]; decide, by rw [hlogs]; decide, ?_⟩
  exact run_stop_round_is_final (fun _ => none) trivialEnv genThenValidateOracle {} 1
    (by rw [hlogs]; decide) (Or.inl (by rw [hlogs]; decide))

/-- Provider oracle for the C3 counterexample: round 1 requests
`content_execution`; every later round requests `web_search`. -/
def genThenSearchOracle : Nat → List StreamEvent := fun n =>
  if n = 1 then
    [StreamEvent.contentBlockStartTool "c1" "content_execution",
     StreamEvent.contentBlockStop,
     StreamEvent.messageDelta 0 (some "tool_use")]
  else
    [StreamEvent.contentBlockStartTool "w1" "web_search",
     StreamEvent.contentBlockStop,
     StreamEvent.messageDelta 0 (some "tool_use")]

/-- Number of dispatching rounds strictly after the first `k` rounds. -/
def dispatchedAfter (logs : List IterLog) (k : Nat) : Nat :=
  ((logs.drop k).filter (fun l => l.dispatched)).length

/-- C3 as stated, as a property of one run's round log: once the
generation tool has been dispatched (round `i`) and a second iteration
has completed, at most one further tool-dispatching round occurs. -/
def c3ClaimProp (logs : List IterLog) : Prop :=
  ∀ i, i < logs.length →
    "content_execution" ∈ (logs.getD i ⟨[], false, false⟩).toolNames →
    dispatchedAfter logs (max (i + 1) 2) ≤ 1

/-! ## Tool-execution claims (C5, C6) -/

/-- The `toolResults` record one `processToolCalls` pass appends for an
invocation, covering both the handler-returned result and the thrown
(`catch`) case. -/
def execOneResult (env : ToolEnv) (tu : ToolUse) : ToolResultRec :=
  match executeTool env tu.name tu.input with
  | (_, .ok result) => ⟨tu.id, result.content, !result.success⟩
  | (_, .error msg) => ⟨tu.id, "Error: " ++ msg, true⟩

/-- The result record produced inside `processOneTool` is
`execOneResult`. -/
theorem processOneTool_resultRec (env : ToolEnv) (tu : ToolUse) :
    (processOneTool env tu).2.1 = execOneResult env tu := by
  unfold processOneTool execOneResult
  rcases hE : executeTool env tu.name tu.input with ⟨hevts, exc⟩
  cases exc <;> rfl

/-- Folding the sequential tool loop appends exactly one result per
invocation, in invocation order. -/
theorem foldl_processToolStep_toolResults (env : ToolEnv) :
    ∀ (tus : List ToolUse) (a : AgentState × List SSEEvt),
      (tus.foldl (processToolStep env) a).1.toolResults =
        a.1.toolResults ++ tus.map (execOneResult env) := by
  intro tus
  induction tus with
  | nil => intro a; simp
  | cons tu rest ih =>
      intro a
      rw [List.foldl_cons, ih]
      simp [processToolStep, processOneTool_resultRec]

/-- `takeLast` of an appended block of known length returns that block
(JavaScript `slice(-n)`). -/
theorem takeLast_append_of_length (l₁ l₂ : List α) (n : Nat) (h : l₂.length = n) :
    takeLast n (l₁ ++ l₂) = l₂ := by
  subst h
  simp only [takeLast, List.length_append, Nat.add_sub_cancel]
  exact List.drop_left l₁ l₂

/-- A dispatching round always ends with the tool-results user message,
whose blocks are the per-invocation results in decoder order. -/
theorem runIterCore_last_message (env : ToolEnv) (ds : DecodeState) (st : AgentState)
    (lc : Nat) (hA : (!ds.toolUseBlocks.isEmpty && ds.stopReason == "tool_use") = true) :
    (runIterCore env ds st lc).state.conversationContext.getLast? =
      some ⟨"user", MsgContent.toolResults
        (ds.toolUseBlocks.map (fun tu => toolResultBlockOf (execOneResult env tu)))⟩ := by
  have hres : ∀ stX : AgentState,
      (takeLast ds.toolUseBlocks.length
          (processToolCalls env ds.toolUseBlocks stX).1.toolResults).map toolResultBlockOf =
        ds.toolUseBlocks.map (fun tu => toolResultBlockOf (execOneResult env tu)) := by
    intro stX
    rw [show (processToolCalls env ds.toolUseBlocks stX).1.toolResults =
          stX.toolResults ++ ds.toolUseBlocks.map (execOneResult env) from
        foldl_processToolStep_toolResults env ds.toolUseBlocks (stX, []),
      takeLast_append_of_length _ _ _ (List.length_map _ _), List.map_map]
    rfl
  cases hB : (ds.toolUseBlocks.any (fun t => t.name == "validate_content") ||
      (ds.toolUseBlocks.any (fun t => t.name == "content_execution") && decide (2 ≤ lc))) <;>
    cases hCB : !ds.contentBlocks.isEmpty <;>
      simp [runIterCore, hA, hB, hCB, hres]

/-- C5: the well-formed invocations of a dispatching round are executed
sequentially in decoder order — `processToolCalls` appends exactly one
`toolResults` record per invocation (handler success, failure and throw
alike), each with `toolCallId` equal to its invocation id, in the same
order as the invocations; and the `tool_result` blocks of the user
message the loop then appends (built from `slice(-n)` of the recorded
results) are those results in the same order. -/
theorem processToolCalls_sequential (env : ToolEnv) (tus : List ToolUse) (st : AgentState) :
    (processToolCalls env tus st).1.toolResults =
      st.toolResults ++ tus.map (execOneResult env) ∧
    (∀ tu ∈ tus, (execOneResult env tu).toolCallId = tu.id) ∧
    (takeLast tus.length (processToolCalls env tus st).1.toolResults).map toolResultBlockOf =
      tus.map (fun tu => toolResultBlockOf (execOneResult env tu)) ∧
    (∀ (parse : String → Option JVal) (evs : List StreamEvent) (stA : AgentState) (lc : Nat),
      (!(decodeEvents parse evs {}).toolUseBlocks.isEmpty &&
          (decodeEvents parse evs {}).stopReason == "tool_use") = true →
      (runIter parse env evs stA lc).state.conversationContext.getLast? =
        some ⟨"user", MsgContent.toolResults
          ((decodeEvents parse evs {}).toolUseBlocks.map
            (fun tu => toolResultBlockOf (execOneResult env tu)))⟩) := by
  refine ⟨foldl_processToolStep_toolResults env tus (st, []), ?_, ?_, ?_⟩
  · intro tu _
    unfold execOneResult
    rcases hE : executeTool env tu.name tu.input with ⟨hevts, exc⟩
    cases exc <;> rfl
  · rw [show (processToolCalls env tus st).1.toolResults =
          st.toolResults ++ tus.map (execOneResult env) from
        foldl_processToolStep_toolResults env tus (st, []),
      takeLast_append_of_length _ _ _ (List.length_map _ _), List.map_map]
    rfl
  · intro parse evs stA lc hA
    exact runIterCore_last_message env (decodeEvents parse evs {}) _ lc hA

/-- C5 witness: one concrete invocation recorded and echoed back as the
single tool-result block of the appended user message. -/
theorem processToolCalls_sequential_witness :
    (processToolCalls trivialEnv [⟨"t1", "web_search", JVal.obj []⟩] {}).1.toolResults =
      ({} : AgentState).toolResults ++
        [(⟨"t1", "web_search", JVal.obj []⟩ : ToolUse)].map (execOneResult trivialEnv) ∧
    (runIter (fun _ => none) trivialEnv
        [StreamEvent.contentBlockStartTool "t1" "web_search", StreamEvent.contentBlockStop,
         StreamEvent.messageDelta 0 (some "tool_use")]
        {} 1).state.conversationContext.getLast? =
      some ⟨"user", MsgContent.toolResults
        ((decodeEvents (fun _ => none)
            [StreamEvent.contentBlockStartTool "t1" "web_search", StreamEvent.contentBlockStop,
             StreamEvent.messageDelta 0 (some "tool_use")] {}).toolUseBlocks.map
          (fun tu => toolResultBlockOf (execOneResult trivialEnv tu)))⟩ := by
  have h := processToolCalls_sequential trivialEnv [⟨"t1", "web_search", JVal.obj []⟩] {}
  exact ⟨h.1, h.2.2.2 (fun _ => none)
    [StreamEvent.contentBlockStartTool "t1" "web_search", StreamEvent.contentBlockStop,
     StreamEvent.messageDelta 0 (some "tool_use")] {} 1 rfl⟩

/-- Provider oracle for the unknown-tool scenario: round 1 requests the
unregistered tool `frobnicate`; round 2 streams a plain text answer and
stops. -/
def frobOracle : Nat → List StreamEvent := fun n =>
  if n = 1 then
    [StreamEvent.contentBlockStartTool "t1" "frobnicate",
     StreamEvent.contentBlockStop,
     StreamEvent.messageDelta 0 (some "tool_use")]
  else if n = 2 then
    [StreamEvent.contentBlockStartText,
     StreamEvent.textDelta "All done",
     StreamEvent.messageDelta 5 (some "end_turn")]
  else []

/-- C6: dispatching any name outside the registered switch returns a
failure result (`success = false`, content `Unknown tool: <name>`,
error `Tool not found`) without throwing past the dispatch boundary;
the loop records it as one failed tool-result with the invocation's id;
and a concrete run that requests `frobnicate` continues to a second
iteration and finalizes normally instead of failing. -/
theorem executeTool_unknown_tool (env : ToolEnv) (name : String) (input : JVal) (id : String)
    (h : ¬ name ∈ registeredToolNames) :
    executeTool env name input =
      ([], .ok { success := false, content := "Unknown tool: " ++ name,
                 error := some "Tool not found" }) ∧
    execOneResult env ⟨id, name, input⟩ = ⟨id, "Unknown tool: " ++ name, true⟩ ∧
    ((Tier1Orchestrator.run (fun _ => none) trivialEnv frobOracle {}).logs =
        [⟨["frobnicate"], true, true⟩, ⟨[], false, false⟩] ∧
      (Tier1Orchestrator.run (fun _ => none) trivialEnv frobOracle {}).state.toolResults =
        [⟨"t1", "Unknown tool: frobnicate", true⟩] ∧
      (Tier1Orchestrator.run (fun _ => none) trivialEnv frobOracle {}).state.response =
        "All done") := by
  have hmain : executeTool env name input =
      ([], .ok { success := false, content := "Unknown tool: " ++ name,
                 error := some "Tool not found" }) := by
    unfold executeTool
    split
    · exact absurd (by simp_all [registeredToolNames]) h
    · exact absurd (by simp_all [registeredToolNames]) h
    · exact absurd (by simp_all [registeredToolNames]) h
    · exact absurd (by simp_all [registeredToolNames]) h
    · exact absurd (by simp_all [registeredToolNames]) h
    · rfl
  refine ⟨hmain, ?_, rfl, rfl, rfl⟩
  unfold execOneResult
  rw [hmain]
  rfl

/-- C6 witness: the scenario's name `frobnicate` is unregistered and
yields the failure result. -/
theorem executeTool_unknown_tool_witness :
    ¬ "frobnicate" ∈ registeredToolNames ∧
    executeTool trivialEnv "frobnicate" (JVal.obj []) =
      ([], .ok { success := false, content := "Unknown tool: " ++ "frobnicate",
                 error := some "Tool not found" }) :=
  ⟨by decide,
    (executeTool_unknown_tool trivialEnv "frobnicate" (JVal.obj []) "t1" (by decide)).1⟩

/-- C3 counterexample: with `content_execution` dispatched in round 1
and `web_search` requested thereafter, the loop dispatches in rounds
3, 4 and 5 — three further dispatching rounds after the second
iteration completed, refuting the claimed at-most-one bound. -/
theorem run_c3_claim_counterexample :
    ¬ c3ClaimProp (Tier1Orchestrator.run (fun _ => none) trivialEnv genThenSearchOracle {}).logs := by
  intro h
  have hlogs : (Tier1Orchestrator.run (fun _ => none) trivialEnv genThenSearchOracle {}).logs =
      [⟨["content_execution"], true, true⟩, ⟨["web_search"], true, true⟩,
       ⟨["web_search"], true, true⟩, ⟨["web_search"], true, true⟩,
       ⟨["web_search"], true, true⟩] := rfl
  have h0 := h 0 (by rw [hlogs]; decide) (by rw [hlogs]; decide)
  rw [hlogs] at h0
  exact absurd h0 (by decide)

/-! ## Chat-service claim (C7) -/

/-- The `catch`-block event is a terminal (`error`) event whichever
branch of the `instanceof` test is taken. -/
theorem chatErrEvent_isTerminal (e : ChatErr) : (chatErrEvent e).isTerminal = true := by
  unfold chatErrEvent
  split <;> rfl

/-- Terminal events count additively over trace concatenation. -/
theorem terminalCount_append (a b : List SSEEvt) :
    terminalCount (a ++ b) = terminalCount a + terminalCount b := by
  simp [terminalCount, List.filter_append]

/-- A one-event trace holding a terminal event counts one. -/
theorem terminalCount_single (x : SSEEvt) (h : x.isTerminal = true) :
    terminalCount [x] = 1 := by
  simp [terminalCount, List.filter_cons, h]

/-- C7 (amended): every `processMessage` call closes the stream, its
trace ends with a terminal event (`done` on success, `error`
otherwise), the successful trace ends with the final answer `message`
immediately followed by `done`; and when the agent phase emitted no
terminal-class event of its own, the whole trace holds exactly one
terminal event.  (Unconditionally the trace can hold a second terminal
event: a tier-2 generation failure emits an `error` mid-run and the run
still continues to `done` — see the counterexample.) -/
theorem processMessage_terminal_events (env : ChatEnv) :
    (ChatService.processMessage env).2 = true ∧
    (∃ e, (ChatService.processMessage env).1.getLast? = some e ∧ e.isTerminal = true) ∧
    (terminalCount env.agentEvents = 0 →
      terminalCount (ChatService.processMessage env).1 = 1) ∧
    (∀ cid u n resp mid, convOutcome env = .ok cid → env.saveUserMessage = .ok u →
      env.getContextLen = .ok n → env.agentOutcome = .ok resp →
      env.saveAssistantMessage = .ok mid →
      (ChatService.processMessage env).1 =
        [SSEEvt.thinking "agent_reasoning" "Saving your message...",
         SSEEvt.thinking "agent_reasoning" "Loading conversation history...",
         SSEEvt.thinking "agent_reasoning" "Processing with AI agents..."] ++
          env.agentEvents ++ [SSEEvt.message resp mid, SSEEvt.done cid (n + 2)]) := by
  rcases hconv : convOutcome env with e | cid
  · have hp : ChatService.processMessage env = ([] ++ [chatErrEvent e], true) := by
      unfold ChatService.processMessage
      rw [hconv]
      try rfl
    refine ⟨by rw [hp], ⟨chatErrEvent e, by rw [hp]; rfl, chatErrEvent_isTerminal e⟩, ?_, ?_⟩
    · intro _
      rw [hp]
      exact terminalCount_single _ (chatErrEvent_isTerminal e)
    · intro cid u n resp mid hc
      exact absurd hc (by simp)
  · rcases hu : env.saveUserMessage with e | u
    · have hp : ChatService.processMessage env =
          ([SSEEvt.thinking "agent_reasoning" "Saving your message..."] ++ [chatErrEvent e],
           true) := by
        unfold ChatService.processMessage
        rw [hconv, hu]
        try rfl
      refine ⟨by rw [hp], ⟨chatErrEvent e, by rw [hp]; rfl, chatErrEvent_isTerminal e⟩, ?_, ?_⟩
      · intro _
        rw [hp, terminalCount_append, terminalCount_single _ (chatErrEvent_isTerminal e)]
        rfl
      · intro cid u n resp mid _ hc
        exact absurd hc (by simp)
    · rcases hn : env.getContextLen with e | n
      · have hp : ChatService.processMessage env =
            ([SSEEvt.thinking "agent_reasoning" "Saving your message...",
              SSEEvt.thinking "agent_reasoning" "Loading conversation history..."] ++
              [chatErrEvent e], true) := by
          unfold ChatService.processMessage
          rw [hconv, hu, hn]
          try rfl
        refine ⟨by rw [hp], ⟨chatErrEvent e, by rw [hp]; rfl, chatErrEvent_isTerminal e⟩, ?_, ?_⟩
        · intro _
          rw [hp, terminalCount_append, terminalCount_single _ (chatErrEvent_isTerminal e)]
          rfl
        · intro cid u n resp mid _ _ hc
          exact absurd hc (by simp)
      · rcases hr : env.agentOutcome with e | resp
        · have hp : ChatService.processMessage env =
              (([SSEEvt.thinking "agent_reasoning" "Saving your message...",
                 SSEEvt.thinking "agent_reasoning" "Loading conversation history...",
                 SSEEvt.thinking "agent_reasoning" "Processing with AI agents..."] ++
                  env.agentEvents) ++ [chatErrEvent e], true) := by
            unfold ChatService.processMessage
            rw [hconv, hu, hn, hr]
            try rfl
          refine ⟨by rw [hp], ⟨chatErrEvent e, ?_, chatErrEvent_isTerminal e⟩, ?_, ?_⟩
          · rw [hp]
            exact List.getLast?_concat _
          · intro h0
            rw [hp, terminalCount_append, terminalCount_append,
              terminalCount_single _ (chatErrEvent_isTerminal e), h0]
            rfl
          · intro cid u n resp mid _ _ _ hc
            exact absurd hc (by simp)
        · rcases hm : env.saveAssistantMessage with e | mid
          · have hp : ChatService.processMessage env =
                (([SSEEvt.thinking "agent_reasoning" "Saving your message...",
                   SSEEvt.thinking "agent_reasoning" "Loading conversation history...",
                   SSEEvt.thinking "agent_reasoning" "Processing with AI agents..."] ++
                    env.agentEvents) ++ [chatErrEvent e], true) := by
              unfold ChatService.processMessage
              rw [hconv, hu, hn, hr, hm]
              try rfl
            refine ⟨by rw [hp], ⟨chatErrEvent e, ?_, chatErrEvent_isTerminal e⟩, ?_, ?_⟩
            · rw [hp]
              exact List.getLast?_concat _
            · intro h0
              rw [hp, terminalCount_append, terminalCount_append,
                terminalCount_single _ (chatErrEvent_isTerminal e), h0]
              rfl
            · intro cid u n resp mid _ _ _ _ hc
              exact absurd hc (by simp)
          · have hp : ChatService.processMessage env =
                (([SSEEvt.thinking "agent_reasoning" "Saving your message...",
                   SSEEvt.thinking "agent_reasoning" "Loading conversation history...",
                   SSEEvt.thinking "agent_reasoning" "Processing with AI agents..."] ++
                    env.agentEvents ++ [SSEEvt.message resp mid]) ++
                  [SSEEvt.done cid (n + 2)], true) := by
              unfold ChatService.processMessage
              rw [hconv, hu, hn, hr, hm]
              simp
            refine ⟨by rw [hp], ⟨SSEEvt.done cid (n + 2), ?_, rfl⟩, ?_, ?_⟩
            · rw [hp]
              exact List.getLast?_concat _
            · intro h0
              rw [hp, terminalCount_append, terminalCount_append, terminalCount_append,
                terminalCount_single _ (rfl : (SSEEvt.done cid (n + 2)).isTerminal = true), h0]
              rfl
            · intro cid2 u2 n2 resp2 mid2 hc2 hu2 hn2 hr2 hm2
              cases hc2
              cases hu2
              cases hn2
              cases hr2
              cases hm2
              rw [hp]
              simp

/-- A registry whose `content_execution` handler is the embedded tier-2
pipeline with a brief whose content type is missing, so `buildPrompts`
throws, `Tier2Executor.execute` emits an `error` SSE event and
rethrows, and the handler's `catch` converts that into a failure
result. -/
def tier2FailEnv : ToolEnv :=
  { trivialEnv with
    contentExecution := contentExecutionHandler ⟨[], 0, some "boom"⟩ 0 (.ok "art1") }

/-- Provider oracle: round 1 requests `content_execution` (which will
fail in tier 2), round 2 streams an apology text and stops. -/
def ceFailOracle : Nat → List StreamEvent := fun n =>
  if n = 1 then
    [StreamEvent.contentBlockStartTool "c1" "content_execution",
     StreamEvent.contentBlockStop,
     StreamEvent.messageDelta 0 (some "tool_use")]
  else if n = 2 then
    [StreamEvent.contentBlockStartText,
     StreamEvent.textDelta "Generation failed, sorry.",
     StreamEvent.messageDelta 0 (some "end_turn")]
  else []

/-- A chat environment whose agent phase is the concrete orchestrator
run above (its emitted events and final response), with every
persistence step succeeding. -/
def c7FailEnv : ChatEnv :=
  { reqConversationId := some "conv1",
    getConversation := .ok (),
    createConversation := .ok "newconv",
    saveUserMessage := .ok "mu",
    getContextLen := .ok 3,
    agentEvents := (Tier1Orchestrator.run (fun _ => none) tier2FailEnv ceFailOracle {}).events,
    agentOutcome := .ok (Tier1Orchestrator.run (fun _ => none) tier2FailEnv
      ceFailOracle {}).state.response,
    saveAssistantMessage := .ok "ma" }

/-- C7 counterexample: in the run where tier-2 generation fails, the
outbound trace carries two terminal-class events — the mid-run `error`
emitted by `Tier2Executor.execute` and the closing `done` — so the run
does not emit exactly one terminal event, and events (including `done`)
follow the `error`. -/
theorem chat_two_terminal_events_counterexample :
    terminalCount (ChatService.processMessage c7FailEnv).1 = 2 ∧
    ¬ terminalCount (ChatService.processMessage c7FailEnv).1 = 1 := by
  have h : terminalCount (ChatService.processMessage c7FailEnv).1 = 2 := rfl
  exact ⟨h, by rw [h]; decide⟩

/-- A chat environment with a quiet agent phase and all steps
succeeding. -/
def c7OkEnv : ChatEnv :=
  { reqConversationId := none,
    getConversation := .ok (),
    createConversation := .ok "c9",
    saveUserMessage := .ok "u1",
    getContextLen := .ok 4,
    agentEvents := [],
    agentOutcome := .ok "resp",
    saveAssistantMessage := .ok "m1" }

/-- C7 witness: with no agent-emitted terminal events the trace holds
exactly one terminal event, and the successful trace ends with the
final `message` followed by `done`. -/
theorem processMessage_terminal_events_witness :
    terminalCount c7OkEnv.agentEvents = 0 ∧
    terminalCount (ChatService.processMessage c7OkEnv).1 = 1 ∧
    (ChatService.processMessage c7OkEnv).1 =
      [SSEEvt.thinking "agent_reasoning" "Saving your message...",
       SSEEvt.thinking "agent_reasoning" "Loading conversation history...",
       SSEEvt.thinking "agent_reasoning" "Processing with AI agents..."] ++
        c7OkEnv.agentEvents ++ [SSEEvt.message "resp" "m1", SSEEvt.done "c9" (4 + 2)] :=
  ⟨rfl, (processMessage_terminal_events c7OkEnv).2.2.1 rfl,
    (processMessage_terminal_events c7OkEnv).2.2.2 "c9" "u1" 4 "resp" "m1" rfl rfl rfl rfl rfl⟩

end MX
